import Mathlib

/-!
Shallow embedding of the Buddy daily-planner core
(`src/core/activity_manager.py`, `src/core/completion_manager.py`,
`src/core/analytics_engine.py`, `src/utils/validators.py`,
`src/utils/date_utils.py`, `src/config/defaults.py`), together with
theorems settling the specification claims about the schedule resolver,
the completion ledger and the analytics streaks.
-/

deriving instance DecidableEq for Except

namespace Buddy

/-! ### Calendar model (Python `datetime.date` / `datetime.time` / `datetime.datetime`)

Dates are proleptic-Gregorian year/month/day triples; `toOrdinal` mirrors
`date.toordinal` (day 1 = 0001-01-01) and `weekday` mirrors
`date.weekday()` (Monday = 0).  `Date.replace(day=n)` is partial in
Python (it raises `ValueError` when `n` is outside `1..days_in_month`),
so `replaceDay` returns an `Option`. -/

structure Time where
  hour : Nat
  minute : Nat
deriving DecidableEq, Repr

def timeKey (t : Time) : Nat := t.hour * 60 + t.minute

structure Date where
  year : Nat
  month : Nat
  day : Nat
deriving DecidableEq, Repr

def isLeap (y : Nat) : Bool :=
  y % 4 == 0 && (y % 100 != 0 || y % 400 == 0)

def daysInMonth (y m : Nat) : Nat :=
  if m == 2 then (if isLeap y then 29 else 28)
  else if m == 4 || m == 6 || m == 9 || m == 11 then 30
  else 31

def daysBeforeMonth (y m : Nat) : Nat :=
  ((List.range (m - 1)).map (fun i => daysInMonth y (i + 1))).sum

def toOrdinal (d : Date) : Nat :=
  365 * (d.year - 1) + (d.year - 1) / 4 - (d.year - 1) / 100 + (d.year - 1) / 400
    + daysBeforeMonth d.year d.month + d.day

/-- Python `date.weekday()`: Monday = 0 … Sunday = 6. -/
def weekday (d : Date) : Nat := (toOrdinal d - 1) % 7

/-- Chronological key; on valid dates it orders exactly like Python `date` comparison. -/
def dateKey (d : Date) : Nat := d.year * 10000 + d.month * 100 + d.day

def dateLeb (a b : Date) : Bool := dateKey a ≤ dateKey b

def dateLtb (a b : Date) : Bool := dateKey a < dateKey b

/-- One calendar day earlier (`d - timedelta(days=1)`). -/
def subDay (d : Date) : Date :=
  if 1 < d.day then { d with day := d.day - 1 }
  else if 1 < d.month then { d with month := d.month - 1, day := daysInMonth d.year (d.month - 1) }
  else { year := d.year - 1, month := 12, day := 31 }

/-- One calendar day later (`d + timedelta(days=1)`). -/
def addDay (d : Date) : Date :=
  if d.day < daysInMonth d.year d.month then { d with day := d.day + 1 }
  else if d.month < 12 then { d with month := d.month + 1, day := 1 }
  else { year := d.year + 1, month := 1, day := 1 }

def subDays (d : Date) : Nat → Date
  | 0 => d
  | n + 1 => subDays (subDay d) n

def addDays (d : Date) : Nat → Date
  | 0 => d
  | n + 1 => addDays (addDay d) n

/-- Python `d.replace(day := n)`: raises `ValueError` unless `1 ≤ n ≤ days_in_month`. -/
def replaceDay (d : Date) (n : Nat) : Option Date :=
  if 1 ≤ n ∧ n ≤ daysInMonth d.year d.month then some { d with day := n } else none

structure DateTime where
  date : Date
  hour : Nat
  minute : Nat
deriving DecidableEq, Repr

/-! ### String helpers (Python `str.lower`, `str.__contains__`, `strftime("%A")`) -/

/-- Python `str.lower()` (ASCII case mapping suffices for the day names and
day abbreviations the resolver compares). -/
def pyLower (s : String) : String := String.mk (s.toList.map Char.toLower)

/-- Substring containment on character lists: Python `needle in hay`. -/
def listContainsSub (needle : List Char) : List Char → Bool
  | [] => needle.isEmpty
  | c :: t => needle.isPrefixOf (c :: t) || listContainsSub needle t

def strContainsSub (hay needle : String) : Bool :=
  listContainsSub needle.toList hay.toList

def DAY_NAMES : List String :=
  ["monday", "tuesday", "wednesday", "thursday", "friday", "saturday", "sunday"]

/-- `get_day_name` from `date_utils.py`: `d.strftime("%A").lower()`. -/
def getDayName (d : Date) : String := DAY_NAMES.getD (weekday d) ""

/-- Python slicing `s[:3]`. -/
def take3 (s : String) : String := String.mk (s.toList.take 3)

/-! ### Enumerations from `config/defaults.py` -/

def CATEGORIES : List String :=
  ["Work", "Personal", "Health", "Education", "Errands", "Social", "Finance", "Other"]

def RECURRENCE_OPTIONS : List String :=
  ["once", "daily", "weekdays", "weekends", "weekly", "custom"]

def COMPLETION_STATUSES : List String :=
  ["done", "missed", "partial", "rescheduled"]

/-! ### Data model (`models/activity.py`, `models/completion.py`)

SQLAlchemy rows are embedded as plain records; the store is a pair of
lists in insertion order together with the autoincrement counters. -/

structure Activity where
  id : Nat
  title : String
  description : Option String
  category : String
  start_time : Time
  duration : Option Int
  recurrence : String
  custom_days : Option String
  location : Option String
  prep_time : Int
  is_outdoor : Bool
  is_active : Bool
  created_at : DateTime
deriving DecidableEq, Repr

structure Completion where
  id : Nat
  activity_id : Nat
  date : Date
  status : String
  completed_at : Option DateTime
  notes : Option String
deriving DecidableEq, Repr

structure DB where
  activities : List Activity
  completions : List Completion
  nextActivityId : Nat
  nextCompletionId : Nat
deriving DecidableEq, Repr

/-! ### Validators (`utils/validators.py`) -/

def validateCategory (category : String) : Except String String :=
  match CATEGORIES.find? (fun cat => pyLower cat == pyLower category) with
  | some cat => Except.ok cat
  | none => Except.error "Invalid category"

def validateRecurrence (recurrence : String) : Except String String :=
  let recurrence_lower := pyLower recurrence
  if recurrence_lower ∈ RECURRENCE_OPTIONS then Except.ok recurrence_lower
  else Except.error "Invalid recurrence"

def validateStatus (status : String) : Except String String :=
  let status_lower := pyLower status
  if status_lower ∈ COMPLETION_STATUSES then Except.ok status_lower
  else Except.error "Invalid status"

def validateDuration (duration : Int) : Except String Int :=
  if duration < 1 then Except.error "Duration must be at least 1 minute"
  else if duration > 1440 then Except.error "Duration cannot exceed 24 hours"
  else Except.ok duration

def validatePrepTime (prep_time : Int) : Except String Int :=
  if prep_time < 0 then Except.error "Preparation time cannot be negative"
  else if prep_time > 180 then Except.error "Preparation time cannot exceed 3 hours"
  else Except.ok prep_time

/-! ### Schedule resolver (`ActivityManager._is_scheduled_for_date`) -/

/-- Python truthiness of the optional `custom_days` column. -/
def customDaysTruthy : Option String → Bool
  | none => false
  | some s => !(s == "")

def isScheduledForDate (a : Activity) (target_date : Date) : Bool :=
  if a.recurrence == "daily" then true
  else if a.recurrence == "weekdays" then decide (weekday target_date < 5)
  else if a.recurrence == "weekends" then decide (5 ≤ weekday target_date)
  else if a.recurrence == "weekly" then weekday target_date == weekday a.created_at.date
  else if a.recurrence == "custom" && customDaysTruthy a.custom_days then
    strContainsSub (pyLower (a.custom_days.getD "")) (take3 (getDayName target_date))
  else if a.recurrence == "once" then target_date == a.created_at.date
  else false

/-! ### Completion ledger (`CompletionManager`) -/

def pairP (activity_id : Nat) (target_date : Date) (c : Completion) : Bool :=
  c.activity_id == activity_id && c.date == target_date

/-- Records the store holds for one `(activity_id, date)` key. -/
def pairRecords (db : DB) (activity_id : Nat) (target_date : Date) : List Completion :=
  db.completions.filter (pairP activity_id target_date)

/-- Python truthiness of the optional `notes` argument. -/
def notesTruthy : Option String → Bool
  | none => false
  | some s => !(s == "")

/-- Mutate the first element satisfying `p` (SQLAlchemy in-place update of
the row returned by `.first()`). -/
def updateFirst (p : α → Bool) (f : α → α) : List α → List α
  | [] => []
  | x :: xs => if p x then f x :: xs else x :: updateFirst p f xs

/-- Outcome of `CompletionManager.mark`: a raised `ValueError` from
`validate_status`, the `None` return for an unknown activity id (surfaced
as not-found / 404 at the boundaries), or the upserted record.  Each
constructor carries the store state after the call. -/
inductive MarkOutcome where
  | validationError (msg : String) (db : DB)
  | notFound (db : DB)
  | ok (c : Completion) (db : DB)
deriving DecidableEq, Repr

/-- `CompletionManager.mark`.  `target_date` is the Python argument after
the today-default is resolved; `now` stands for `datetime.now()`. -/
def mark (db : DB) (activity_id : Nat) (status : String) (target_date : Date)
    (notes : Option String) (now : DateTime) : MarkOutcome :=
  match validateStatus status with
  | Except.error m => MarkOutcome.validationError m db
  | Except.ok validated_status =>
    match db.activities.find? (fun a => a.id == activity_id) with
    | none => MarkOutcome.notFound db
    | some _ =>
      match db.completions.find? (pairP activity_id target_date) with
      | some existing =>
        let upd := fun (c : Completion) =>
          { c with
            status := validated_status
            notes := if notesTruthy notes then notes else c.notes
            completed_at := if validated_status == "done" then some now else c.completed_at }
        MarkOutcome.ok (upd existing)
          { db with completions := updateFirst (pairP activity_id target_date) upd db.completions }
      | none =>
        let completion : Completion :=
          { id := db.nextCompletionId
            activity_id := activity_id
            date := target_date
            status := validated_status
            completed_at := if validated_status == "done" then some now else none
            notes := notes }
        MarkOutcome.ok completion
          { db with
            completions := db.completions ++ [completion]
            nextCompletionId := db.nextCompletionId + 1 }

/-- Store state after a `mark` call, whatever its outcome. -/
def markDB (db : DB) (activity_id : Nat) (status : String) (target_date : Date)
    (notes : Option String) (now : DateTime) : DB :=
  match mark db activity_id status target_date notes now with
  | MarkOutcome.validationError _ db' => db'
  | MarkOutcome.notFound db' => db'
  | MarkOutcome.ok _ db' => db'

/-! ### Range statistics (`CompletionManager.get_stats`) -/

structure Stats where
  total : Nat
  done : Nat
  missed : Nat
  /-- count of `partial` records (the Python key `partial` is a Lean keyword) -/
  part : Nat
  rescheduled : Nat
  completion_rate : ℚ
deriving DecidableEq, Repr

/-- Rounding to one decimal place (`round(x, 1)`), on exact rationals. -/
def roundTo1 (q : ℚ) : ℚ := (round (q * 10) : ℤ) / 10

def getStats (db : DB) (start_date end_date : Date) : Stats :=
  let completions := db.completions.filter
    (fun c => dateLeb start_date c.date && dateLeb c.date end_date)
  let total := completions.length
  if total = 0 then
    { total := 0, done := 0, missed := 0, part := 0, rescheduled := 0, completion_rate := 0 }
  else
    let done := completions.countP (fun c => c.status == "done")
    let missed := completions.countP (fun c => c.status == "missed")
    let part := completions.countP (fun c => c.status == "partial")
    let rescheduled := completions.countP (fun c => c.status == "rescheduled")
    let completion_rate : ℚ := ((done + part * (1 / 2 : ℚ)) / total) * 100
    { total := total, done := done, missed := missed, part := part,
      rescheduled := rescheduled, completion_rate := roundTo1 completion_rate }

/-! ### Streaks

`CompletionManager.get_streak` walks the `done` records newest-first and
steps the expected date back with `expected_date.replace(day =
expected_date.day - 1)`, which raises `ValueError` when `expected_date`
is the first of a month — hence the `Option` result.
`AnalyticsEngine._calculate_streak` is the same walk but steps back with
`expected_date -= timedelta(days=1)`, which is total. -/

def cmplDateGe (a b : Completion) : Prop := dateKey b.date ≤ dateKey a.date

instance : DecidableRel cmplDateGe := fun a b => Nat.decLe (dateKey b.date) (dateKey a.date)

instance : IsTotal Completion cmplDateGe := ⟨fun a b => Nat.le_total (dateKey b.date) (dateKey a.date)⟩

instance : IsTrans Completion cmplDateGe := ⟨fun _ _ _ h1 h2 => Nat.le_trans h2 h1⟩

/-- The `status == "done"` query for one activity, ordered by date descending. -/
def doneCompletionsDesc (db : DB) (activity_id : Nat) : List Completion :=
  List.insertionSort cmplDateGe
    (db.completions.filter (fun c => c.activity_id == activity_id && c.status == "done"))

def ledgerStreakGo : List Completion → Date → Nat → Option Nat
  | [], _, streak => some streak
  | c :: rest, expected_date, streak =>
    if c.date = expected_date then
      match replaceDay expected_date (expected_date.day - 1) with
      | some e => ledgerStreakGo rest e (streak + 1)
      | none => none
    else if dateLtb c.date expected_date then some streak
    else ledgerStreakGo rest expected_date streak

/-- `CompletionManager.get_streak` (`today` is the resolved `date.today()`);
`none` is the `ValueError` raised by `date.replace(day=0)`. -/
def getStreak (db : DB) (activity_id : Nat) (today : Date) : Option Nat :=
  let completions := doneCompletionsDesc db activity_id
  if completions.isEmpty then some 0
  else ledgerStreakGo completions today 0

def analyticsStreakGo : List Completion → Date → Nat → Nat
  | [], _, streak => streak
  | c :: rest, expected_date, streak =>
    if c.date = expected_date then analyticsStreakGo rest (subDay expected_date) (streak + 1)
    else if dateLtb c.date expected_date then streak
    else analyticsStreakGo rest expected_date streak

/-- `AnalyticsEngine._calculate_streak`. -/
def analyticsStreak (db : DB) (activity_id : Nat) (today : Date) : Nat :=
  let completions := doneCompletionsDesc db activity_id
  if completions.isEmpty then 0
  else analyticsStreakGo completions today 0

structure StreakEntry where
  activity_id : Nat
  title : String
  category : String
  streak : Nat
deriving DecidableEq, Repr

def entryGe (a b : StreakEntry) : Prop := b.streak ≤ a.streak

instance : DecidableRel entryGe := fun a b => Nat.decLe b.streak a.streak

instance : IsTotal StreakEntry entryGe := ⟨fun a b => Nat.le_total b.streak a.streak⟩

instance : IsTrans StreakEntry entryGe := ⟨fun _ _ _ h1 h2 => Nat.le_trans h2 h1⟩

/-- `AnalyticsEngine.get_streaks`: active activities, each with its
analytics streak, sorted descending by streak length. -/
def getStreaks (db : DB) (today : Date) : List StreakEntry :=
  let activities := db.activities.filter (fun a => a.is_active)
  let streaks := activities.map
    (fun a => StreakEntry.mk a.id a.title a.category (analyticsStreak db a.id today))
  List.insertionSort entryGe streaks

/-! ### Week resolver (`ActivityManager.get_for_week`, `get_week_bounds`) -/

def actLe (a b : Activity) : Prop := timeKey a.start_time ≤ timeKey b.start_time

instance : DecidableRel actLe := fun a b => Nat.decLe (timeKey a.start_time) (timeKey b.start_time)

instance : IsTotal Activity actLe := ⟨fun a b => Nat.le_total (timeKey a.start_time) (timeKey b.start_time)⟩

instance : IsTrans Activity actLe := ⟨fun _ _ _ h1 h2 => Nat.le_trans h1 h2⟩

/-- `ActivityManager.get_all(active_only=True)`: active rows ordered by start time. -/
def getAllActive (db : DB) : List Activity :=
  List.insertionSort actLe (db.activities.filter (fun a => a.is_active))

/-- `get_week_bounds` with the default Monday week start. -/
def getWeekBounds (target_date : Date) : Date × Date :=
  let days_since_start := (weekday target_date - 0) % 7
  let week_start_date := subDays target_date days_since_start
  (week_start_date, addDays week_start_date 6)

/-- The `while current <= week_end` loop of `get_for_week`.  The step
`current.replace(day=current.day + 1)` raises `ValueError` past a month
end, so the loop either crashes (`none`) or terminates; the fuel only
bounds the recursion and `40` exceeds the at-most-31 possible in-month
steps, so it is never exhausted on any input the function builds. -/
def weekLoop (acts : List Activity) : Nat → Date → Date → List Activity → Option (List Activity)
  | 0, _, _, _ => none
  | fuel + 1, current, week_end, result =>
    if dateKey current ≤ dateKey week_end then
      let result' := acts.foldl
        (fun res a =>
          if isScheduledForDate a current && !(res.contains a) then res ++ [a] else res)
        result
      match replaceDay current (current.day + 1) with
      | some next => weekLoop acts fuel next week_end result'
      | none => none
    else some result

/-- `ActivityManager.get_for_week`; `none` is the `ValueError` raised when
the week window crosses a month boundary. -/
def getForWeek (db : DB) (target_date : Date) : Option (List Activity) :=
  let bounds := getWeekBounds target_date
  (weekLoop (getAllActive db) 40 bounds.1 bounds.2 []).map (List.insertionSort actLe)

/-! ### Activity creation (`ActivityManager.create`)

`start_time` is taken after `parse_time` (string parsing by the external
`dateutil` parser is out of scope per the spec); `created_at` is the row
default `datetime.now()`.  Note the Python guards `if duration:` and
`if prep_time:` skip validation when the value is `0`. -/

def create (db : DB) (title : String) (parsed_time : Time) (category : String)
    (description : Option String) (duration : Option Int) (recurrence : String)
    (custom_days : Option String) (location : Option String) (prep_time : Int)
    (is_outdoor : Bool) (created_at : DateTime) : Except String (Activity × DB) :=
  match validateCategory category with
  | Except.error m => Except.error m
  | Except.ok validated_category =>
    match validateRecurrence recurrence with
    | Except.error m => Except.error m
    | Except.ok validated_recurrence =>
      match (match duration with
             | some dur => if dur ≠ 0 then (validateDuration dur).map some else Except.ok (some dur)
             | none => Except.ok none) with
      | Except.error m => Except.error m
      | Except.ok duration' =>
        match (if prep_time ≠ 0 then validatePrepTime prep_time else Except.ok prep_time) with
        | Except.error m => Except.error m
        | Except.ok prep_time' =>
          let activity : Activity :=
            { id := db.nextActivityId
              title := title
              description := description
              category := validated_category
              start_time := parsed_time
              duration := duration'
              recurrence := validated_recurrence
              custom_days := custom_days
              location := location
              prep_time := prep_time'
              is_outdoor := is_outdoor
              is_active := true
              created_at := created_at }
          Except.ok (activity,
            { db with
              activities := db.activities ++ [activity]
              nextActivityId := db.nextActivityId + 1 })

/-! ### Concrete fixtures used by the closed theorems -/

def dt0 : DateTime := ⟨⟨2024, 2, 10⟩, 9, 0⟩

def actRun : Activity :=
  { id := 1, title := "Run", description := none, category := "Health",
    start_time := ⟨7, 0⟩, duration := some 30, recurrence := "daily",
    custom_days := none, location := none, prep_time := 15,
    is_outdoor := true, is_active := true, created_at := dt0 }

def cDone (d : Date) : Completion :=
  { id := 1, activity_id := 1, date := d, status := "done",
    completed_at := some ⟨d, 8, 0⟩, notes := none }

/-- Store with one done record for 2024-03-01 (a first-of-month). -/
def dbMar1 : DB := ⟨[actRun], [cDone ⟨2024, 3, 1⟩], 2, 2⟩

/-- Store with one done record for 2024-03-15 (mid-month). -/
def dbMar15 : DB := ⟨[actRun], [cDone ⟨2024, 3, 15⟩], 2, 2⟩

def cStat (i : Nat) (d : Date) (st : String) : Completion :=
  { id := i, activity_id := 1, date := d, status := st, completed_at := none, notes := none }

/-- Four in-range records: 2 done, 2 partial (the spec's 75.0 example). -/
def dbStats : DB :=
  ⟨[actRun],
   [cStat 1 ⟨2024, 3, 11⟩ "done", cStat 2 ⟨2024, 3, 12⟩ "done",
    cStat 3 ⟨2024, 3, 13⟩ "partial", cStat 4 ⟨2024, 3, 14⟩ "partial"], 2, 5⟩

def dbEmpty : DB := ⟨[], [], 1, 1⟩

/-! ### Helper lemmas -/

lemma weekday_lt_seven (d : Date) : weekday d < 7 :=
  Nat.mod_lt _ (by decide)

lemma weekday_cases (d : Date) :
    weekday d = 0 ∨ weekday d = 1 ∨ weekday d = 2 ∨ weekday d = 3 ∨
    weekday d = 4 ∨ weekday d = 5 ∨ weekday d = 6 := by
  have h := weekday_lt_seven d
  omega

lemma abbrev_isEmpty_false (d : Date) :
    (take3 (getDayName d)).toList.isEmpty = false := by
  rcases weekday_cases d with h | h | h | h | h | h | h <;>
    rw [getDayName, h] <;> decide

/-- The empty custom-days text contains no weekday abbreviation. -/
lemma contains_abbrev_empty (d : Date) :
    strContainsSub (pyLower "") (take3 (getDayName d)) = false := by
  have h := abbrev_isEmpty_false d
  have e : (pyLower "").toList = ([] : List Char) := by decide
  simp only [strContainsSub, e, listContainsSub]
  exact h

/-! ### C1: the recurrence decision table -/

/-- C1: for every activity and calendar date, the schedule resolver's
due-decision follows the recurrence decision table: `daily` is always due;
`weekdays` iff the weekday is Monday–Friday; `weekends` iff Saturday or
Sunday; `weekly` iff the weekday equals the creation timestamp's weekday;
`custom` iff the date's 3-letter lowercase weekday abbreviation occurs as
a case-insensitive substring of the custom-days text; `once` iff the date
equals the calendar date of the creation timestamp; any other recurrence
value is not due. -/
theorem is_due_decision_table (a : Activity) (d : Date) :
    isScheduledForDate a d = true ↔
      (a.recurrence = "daily"
        ∨ (a.recurrence = "weekdays" ∧ weekday d < 5)
        ∨ (a.recurrence = "weekends" ∧ 5 ≤ weekday d)
        ∨ (a.recurrence = "weekly" ∧ weekday d = weekday a.created_at.date)
        ∨ (a.recurrence = "custom" ∧
            strContainsSub (pyLower (a.custom_days.getD "")) (take3 (getDayName d)) = true)
        ∨ (a.recurrence = "once" ∧ d = a.created_at.date)) := by
  by_cases h1 : a.recurrence = "daily"
  · simp [isScheduledForDate, h1]
  by_cases h2 : a.recurrence = "weekdays"
  · simp [isScheduledForDate, h1, h2]
  by_cases h3 : a.recurrence = "weekends"
  · simp [isScheduledForDate, h1, h2, h3]
  by_cases h4 : a.recurrence = "weekly"
  · simp [isScheduledForDate, h1, h2, h3, h4]
  by_cases h5 : a.recurrence = "custom"
  · rcases hcd : a.custom_days with _ | s
    · simp [isScheduledForDate, h1, h2, h3, h4, h5, hcd, customDaysTruthy,
        contains_abbrev_empty d]
    · by_cases hs : s = ""
      · simp [isScheduledForDate, h1, h2, h3, h4, h5, hcd, hs, customDaysTruthy,
          contains_abbrev_empty d]
      · simp [isScheduledForDate, h1, h2, h3, h4, h5, hcd, hs, customDaysTruthy]
  by_cases h6 : a.recurrence = "once"
  · simp [isScheduledForDate, h1, h2, h3, h4, h5, h6]
  · simp [isScheduledForDate, h1, h2, h3, h4, h5, h6]

/-! ### Ledger upsert lemmas -/

lemma filter_eq_single_of_find? {α : Type} (p : α → Bool) :
    ∀ (l : List α) (c : α), l.find? p = some c → (l.filter p).length ≤ 1 →
      l.filter p = [c] := by
  intro l
  induction l with
  | nil => intro c hf _; simp at hf
  | cons x xs ih =>
    intro c hf hlen
    by_cases hx : p x
    · rw [List.find?_cons_of_pos _ hx] at hf
      rw [List.filter_cons_of_pos hx] at hlen ⊢
      obtain rfl : x = c := by injection hf
      have : xs.filter p = [] := by
        cases h : xs.filter p with
        | nil => rfl
        | cons y ys => rw [h] at hlen; simp at hlen
      rw [this]
    · rw [List.find?_cons_of_neg _ hx] at hf
      rw [List.filter_cons_of_neg hx] at hlen ⊢
      exact ih c hf hlen

lemma updateFirst_filter {α : Type} (p : α → Bool) (f : α → α) :
    ∀ (l : List α) (c : α), l.filter p = [c] → p (f c) = true →
      (updateFirst p f l).filter p = [f c] := by
  intro l
  induction l with
  | nil => intro c hc _; simp at hc
  | cons x xs ih =>
    intro c hc hfc
    by_cases hx : p x
    · rw [List.filter_cons_of_pos hx] at hc
      obtain ⟨rfl, htail⟩ : x = c ∧ xs.filter p = [] := by
        have h1 : x = c := by injection hc
        have h2 : xs.filter p = [] := by injection hc
        exact ⟨h1, h2⟩
      simp only [updateFirst, if_pos hx]
      rw [List.filter_cons_of_pos hfc, htail]
    · rw [List.filter_cons_of_neg hx] at hc
      simp only [updateFirst, if_neg hx]
      rw [List.filter_cons_of_neg hx]
      exact ih c hc hfc

lemma filter_eq_nil_of_find?_none {α : Type} (p : α → Bool) (l : List α)
    (h : l.find? p = none) : l.filter p = [] := by
  rw [List.filter_eq_nil_iff]
  intro a ha
  have := List.find?_eq_none.mp h a ha
  simpa using this

/-- Behaviour of one successful `mark` call: the upsert invariant, the
returned record's fields, and the frame on the activity table. -/
lemma mark_ok_spec (db : DB) (activity_id : Nat) (st : String) (d : Date)
    (n : Option String) (now : DateTime) (v : String)
    (hv : validateStatus st = Except.ok v)
    (hact : (db.activities.find? (fun a => a.id == activity_id)).isSome = true)
    (hcount : (pairRecords db activity_id d).length ≤ 1) :
    ∃ c', mark db activity_id st d n now = MarkOutcome.ok c' (markDB db activity_id st d n now) ∧
      pairRecords (markDB db activity_id st d n now) activity_id d = [c'] ∧
      c'.status = v ∧
      (markDB db activity_id st d n now).activities = db.activities ∧
      (∀ c0, pairRecords db activity_id d = [c0] →
        c'.id = c0.id ∧
        c'.notes = (if notesTruthy n then n else c0.notes) ∧
        c'.completed_at = (if v == "done" then some now else c0.completed_at)) ∧
      (pairRecords db activity_id d = [] →
        c'.notes = n ∧ c'.completed_at = (if v == "done" then some now else none)) := by
  obtain ⟨a, ha⟩ := Option.isSome_iff_exists.mp hact
  cases hfind : db.completions.find? (pairP activity_id d) with
  | some existing =>
    have hpair : pairRecords db activity_id d = [existing] :=
      filter_eq_single_of_find? _ _ _ hfind hcount
    have hpe : pairP activity_id d existing = true := List.find?_some hfind
    refine ⟨{ existing with
                status := v
                notes := if notesTruthy n then n else existing.notes
                completed_at := if v == "done" then some now else existing.completed_at },
            ?_, ?_, rfl, ?_, ?_, ?_⟩
    · simp only [mark, hv, ha, hfind, markDB]
    · simp only [markDB, mark, hv, ha, hfind, pairRecords]
      exact updateFirst_filter _ _ _ _ hpair (by simpa [pairP] using hpe)
    · simp only [markDB, mark, hv, ha, hfind]
    · intro c0 hc0
      rw [hpair] at hc0
      obtain rfl : existing = c0 := by injection hc0
      exact ⟨rfl, rfl, rfl⟩
    · intro hnil; rw [hpair] at hnil; simp at hnil
  | none =>
    have hpair : pairRecords db activity_id d = [] :=
      filter_eq_nil_of_find?_none _ _ hfind
    refine ⟨{ id := db.nextCompletionId
              activity_id := activity_id
              date := d
              status := v
              completed_at := if v == "done" then some now else none
              notes := n },
            ?_, ?_, rfl, ?_, ?_, ?_⟩
    · simp only [mark, hv, ha, hfind, markDB]
    · simp only [markDB, mark, hv, ha, hfind, pairRecords, List.filter_append]
      rw [pairRecords] at hpair
      rw [hpair]
      simp [pairP]
    · simp only [markDB, mark, hv, ha, hfind]
    · intro c0 hc0; rw [hpair] at hc0; simp at hc0
    · intro _; exact ⟨rfl, rfl⟩

/-! ### C4, C5, C8, C10: the `mark` upsert -/

/-- C4: two successive `mark` calls for the same `(activity_id, date)` pair
leave at most one Completion record for the pair: the second call mutates
the existing record in place (same record id, no duplicate) and the
stored status is the second call's (validated) status. -/
theorem mark_twice_single_record (db : DB) (activity_id : Nat) (st1 st2 : String)
    (d : Date) (n1 n2 : Option String) (now1 now2 : DateTime) (v1 v2 : String)
    (hv1 : validateStatus st1 = Except.ok v1) (hv2 : validateStatus st2 = Except.ok v2)
    (hact : (db.activities.find? (fun a => a.id == activity_id)).isSome = true)
    (hcount : (pairRecords db activity_id d).length ≤ 1) :
    ∃ c1 c2,
      pairRecords (markDB db activity_id st1 d n1 now1) activity_id d = [c1] ∧
      pairRecords (markDB (markDB db activity_id st1 d n1 now1) activity_id st2 d n2 now2)
        activity_id d = [c2] ∧
      c2.id = c1.id ∧ c2.status = v2 := by
  obtain ⟨c1, _, hp1, _, hacts1, _, _⟩ :=
    mark_ok_spec db activity_id st1 d n1 now1 v1 hv1 hact hcount
  have hact2 : ((markDB db activity_id st1 d n1 now1).activities.find?
      (fun a => a.id == activity_id)).isSome = true := by
    rw [hacts1]; exact hact
  have hcount2 : (pairRecords (markDB db activity_id st1 d n1 now1) activity_id d).length ≤ 1 := by
    rw [hp1]; simp
  obtain ⟨c2, _, hp2, hs2, _, hupd2, _⟩ :=
    mark_ok_spec (markDB db activity_id st1 d n1 now1) activity_id st2 d n2 now2 v2 hv2 hact2 hcount2
  obtain ⟨hid, _, _⟩ := hupd2 c1 hp1
  exact ⟨c1, c2, hp1, hp2, hid, hs2⟩

/-- C4 witness: marking the same activity and date "done" then "missed"
on a concrete store leaves one record for the pair, with status "missed". -/
theorem mark_twice_single_record_witness :
    ∃ c1 c2,
      pairRecords (markDB dbMar1 1 "done" ⟨2024, 3, 5⟩ none dt0) 1 ⟨2024, 3, 5⟩ = [c1] ∧
      pairRecords (markDB (markDB dbMar1 1 "done" ⟨2024, 3, 5⟩ none dt0) 1 "missed"
        ⟨2024, 3, 5⟩ none dt0) 1 ⟨2024, 3, 5⟩ = [c2] ∧
      c2.id = c1.id ∧ c2.status = "missed" :=
  mark_twice_single_record dbMar1 1 "done" "missed" ⟨2024, 3, 5⟩ none none dt0 dt0
    "done" "missed" (by decide) (by decide) (by decide) (by decide)

/-- C5: `mark` fails on an invalid status with the `ValueError` raised by
`validate_status` (a ValidationError at the boundary) and fails for an
unknown activity id with the not-found outcome (the `None` return,
surfaced as 404 / exit 1); in both failure cases the store is returned
unchanged — no Completion record is created or modified. -/
theorem mark_failure_modes (db : DB) (activity_id : Nat) (st : String) (d : Date)
    (n : Option String) (now : DateTime) :
    (∀ m, validateStatus st = Except.error m →
      mark db activity_id st d n now = MarkOutcome.validationError m db) ∧
    (∀ v, validateStatus st = Except.ok v →
      db.activities.find? (fun a => a.id == activity_id) = none →
      mark db activity_id st d n now = MarkOutcome.notFound db) := by
  constructor
  · intro m hm
    simp only [mark, hm]
  · intro v hv hnone
    simp only [mark, hv, hnone]

/-- C5 witness: a bogus status is a validation error and an unknown id is
not-found, each leaving the concrete store untouched. -/
theorem mark_failure_modes_witness :
    mark dbMar1 1 "bogus" ⟨2024, 3, 5⟩ none dt0 =
      MarkOutcome.validationError "Invalid status" dbMar1 ∧
    mark dbMar1 99 "done" ⟨2024, 3, 5⟩ none dt0 = MarkOutcome.notFound dbMar1 :=
  ⟨(mark_failure_modes dbMar1 1 "bogus" ⟨2024, 3, 5⟩ none dt0).1 "Invalid status" (by decide),
   (mark_failure_modes dbMar1 99 "done" ⟨2024, 3, 5⟩ none dt0).2 "done" (by decide) (by decide)⟩

/-- C8: on a pair with no prior record, `mark` sets the completion
timestamp to "now" exactly when the written status is `done` (a non-done
first mark stores no timestamp), and a later non-done mark for the same
pair leaves the previously stored timestamp unchanged, so it reflects the
last time the pair was marked done. -/
theorem completed_at_only_on_done (db : DB) (activity_id : Nat) (st1 st2 : String)
    (d : Date) (n1 n2 : Option String) (now1 now2 : DateTime) (v2 : String)
    (hv1 : validateStatus st1 = Except.ok "done")
    (hv2 : validateStatus st2 = Except.ok v2) (hnd : v2 ≠ "done")
    (hact : (db.activities.find? (fun a => a.id == activity_id)).isSome = true)
    (hpair0 : pairRecords db activity_id d = []) :
    (∃ c1, pairRecords (markDB db activity_id st1 d n1 now1) activity_id d = [c1] ∧
      c1.completed_at = some now1) ∧
    (∃ c2, pairRecords (markDB (markDB db activity_id st1 d n1 now1) activity_id st2 d n2 now2)
        activity_id d = [c2] ∧ c2.completed_at = some now1 ∧ c2.status = v2) ∧
    (∃ c0, pairRecords (markDB db activity_id st2 d n2 now2) activity_id d = [c0] ∧
      c0.completed_at = none) := by
  have hcount : (pairRecords db activity_id d).length ≤ 1 := by rw [hpair0]; simp
  obtain ⟨c1, _, hp1, hs1, hacts1, _, hnew1⟩ :=
    mark_ok_spec db activity_id st1 d n1 now1 "done" hv1 hact hcount
  obtain ⟨_, hc1⟩ := hnew1 hpair0
  have hc1done : c1.completed_at = some now1 := by simpa using hc1
  have hact2 : ((markDB db activity_id st1 d n1 now1).activities.find?
      (fun a => a.id == activity_id)).isSome = true := by
    rw [hacts1]; exact hact
  have hcount2 : (pairRecords (markDB db activity_id st1 d n1 now1) activity_id d).length ≤ 1 := by
    rw [hp1]; simp
  obtain ⟨c2, _, hp2, hs2, _, hupd2, _⟩ :=
    mark_ok_spec (markDB db activity_id st1 d n1 now1) activity_id st2 d n2 now2 v2 hv2 hact2 hcount2
  obtain ⟨_, _, hc2⟩ := hupd2 c1 hp1
  have hv2ne : (v2 == "done") = false := by simpa using hnd
  rw [hv2ne] at hc2
  simp only [if_neg Bool.false_ne_true] at hc2
  obtain ⟨c0, _, hp0, _, _, _, hnew0⟩ :=
    mark_ok_spec db activity_id st2 d n2 now2 v2 hv2 hact hcount
  obtain ⟨_, hc0⟩ := hnew0 hpair0
  rw [hv2ne] at hc0
  simp only [if_neg Bool.false_ne_true] at hc0
  exact ⟨⟨c1, hp1, hc1done⟩, ⟨c2, hp2, hc2.trans hc1done, hs2⟩, ⟨c0, hp0, hc0⟩⟩

/-- C8 witness: done-then-rescheduled on a fresh pair keeps the done
timestamp, and a first non-done mark stores none. -/
theorem completed_at_only_on_done_witness :
    (∃ c1, pairRecords (markDB dbMar1 1 "done" ⟨2024, 3, 5⟩ none ⟨⟨2024, 3, 5⟩, 8, 0⟩) 1
        ⟨2024, 3, 5⟩ = [c1] ∧ c1.completed_at = some ⟨⟨2024, 3, 5⟩, 8, 0⟩) ∧
    (∃ c2, pairRecords (markDB (markDB dbMar1 1 "done" ⟨2024, 3, 5⟩ none ⟨⟨2024, 3, 5⟩, 8, 0⟩) 1
        "rescheduled" ⟨2024, 3, 5⟩ none ⟨⟨2024, 3, 5⟩, 9, 0⟩) 1 ⟨2024, 3, 5⟩ = [c2] ∧
        c2.completed_at = some ⟨⟨2024, 3, 5⟩, 8, 0⟩ ∧ c2.status = "rescheduled") ∧
    (∃ c0, pairRecords (markDB dbMar1 1 "rescheduled" ⟨2024, 3, 5⟩ none ⟨⟨2024, 3, 5⟩, 9, 0⟩) 1
        ⟨2024, 3, 5⟩ = [c0] ∧ c0.completed_at = none) :=
  completed_at_only_on_done dbMar1 1 "done" "rescheduled" ⟨2024, 3, 5⟩ none none
    ⟨⟨2024, 3, 5⟩, 8, 0⟩ ⟨⟨2024, 3, 5⟩, 9, 0⟩ "rescheduled"
    (by decide) (by decide) (by decide) (by decide) (by decide)

/-- C10: re-marking an existing `(activity_id, date)` record with an
absent or empty notes argument preserves the previously stored notes. -/
theorem remark_preserves_notes (db : DB) (activity_id : Nat) (st : String) (d : Date)
    (n : Option String) (now : DateTime) (v : String) (c0 : Completion)
    (hv : validateStatus st = Except.ok v)
    (hact : (db.activities.find? (fun a => a.id == activity_id)).isSome = true)
    (hn : notesTruthy n = false)
    (hpair : pairRecords db activity_id d = [c0]) :
    ∃ c, pairRecords (markDB db activity_id st d n now) activity_id d = [c] ∧
      c.notes = c0.notes := by
  have hcount : (pairRecords db activity_id d).length ≤ 1 := by rw [hpair]; simp
  obtain ⟨c, _, hp, _, _, hupd, _⟩ :=
    mark_ok_spec db activity_id st d n now v hv hact hcount
  obtain ⟨_, hnotes, _⟩ := hupd c0 hpair
  rw [hn] at hnotes
  simp only [if_neg Bool.false_ne_true] at hnotes
  exact ⟨c, hp, hnotes⟩

/-- C10 witness: re-marking the 2024-03-01 record with no notes keeps its
stored notes. -/
theorem remark_preserves_notes_witness :
    ∃ c, pairRecords (markDB dbMar1 1 "missed" ⟨2024, 3, 1⟩ none dt0) 1 ⟨2024, 3, 1⟩ = [c] ∧
      c.notes = (cDone ⟨2024, 3, 1⟩).notes :=
  remark_preserves_notes dbMar1 1 "missed" ⟨2024, 3, 1⟩ none dt0 "missed" (cDone ⟨2024, 3, 1⟩)
    (by decide) (by decide) (by decide) (by decide)

/-! ### C2 and C3: month-boundary crashes in `get_streak` and `get_for_week` -/

/-- C2: `CompletionManager.get_streak` steps the expected date back with
`expected_date.replace(day=expected_date.day - 1)`.  On 2024-03-01 — a
first of month — with a single done record for that very day, the claim
says the streak is 1, but the walk reaches `replace(day=0)` and the code
raises `ValueError` (here: `none`).  Mid-month the same data yields the
claimed streak of 1. -/
theorem streak_crashes_at_month_start :
    (dbMar1.completions.filter
      (fun c => c.activity_id == 1 && c.date == (⟨2024, 3, 1⟩ : Date) && c.status == "done")).length = 1 ∧
    getStreak dbMar1 1 ⟨2024, 3, 1⟩ = none ∧
    getStreak dbMar15 1 ⟨2024, 3, 15⟩ = some 1 := by decide

/-- C3: `ActivityManager.get_for_week` advances the loop date with
`current.replace(day=current.day + 1)`.  For reference date 2024-01-31
the Monday-start week is Jan 29 – Feb 4, so the loop reaches
`replace(day=32)` and the code raises `ValueError` (here: `none`) for
every activity set — the claimed deduplicated, start-time-ordered list is
never produced.  For a week fully inside a month the list is produced. -/
theorem week_crashes_at_month_boundary :
    (getAllActive dbMar1).length = 1 ∧
    getForWeek dbMar1 ⟨2024, 1, 31⟩ = none ∧
    getForWeek dbMar1 ⟨2024, 3, 13⟩ = some [actRun] := by decide

/-! ### C6: range statistics -/

/-- C6: range statistics count the completion records in the range by
status, and the completion rate is `(done + 0.5·partial) / total × 100`
rounded to one decimal, `0.0` when total is `0`; in particular the
spec's example — total 4, done 2, partial 2 — yields 75.0. -/
theorem range_stats_spec (db : DB) (s e : Date) :
    ((getStats db s e).total =
        (db.completions.filter (fun c => dateLeb s c.date && dateLeb c.date e)).length ∧
      (getStats db s e).done =
        (db.completions.filter (fun c => dateLeb s c.date && dateLeb c.date e)).countP
          (fun c => c.status == "done") ∧
      (getStats db s e).missed =
        (db.completions.filter (fun c => dateLeb s c.date && dateLeb c.date e)).countP
          (fun c => c.status == "missed") ∧
      (getStats db s e).part =
        (db.completions.filter (fun c => dateLeb s c.date && dateLeb c.date e)).countP
          (fun c => c.status == "partial") ∧
      (getStats db s e).rescheduled =
        (db.completions.filter (fun c => dateLeb s c.date && dateLeb c.date e)).countP
          (fun c => c.status == "rescheduled") ∧
      (getStats db s e).completion_rate =
        (if (getStats db s e).total = 0 then 0
         else roundTo1 ((((getStats db s e).done : ℚ) + ((getStats db s e).part : ℚ) * (1 / 2))
            / ((getStats db s e).total : ℚ) * 100))) ∧
    getStats dbStats ⟨2024, 3, 11⟩ ⟨2024, 3, 17⟩ =
      { total := 4, done := 2, missed := 0, part := 2, rescheduled := 0, completion_rate := 75 } := by
  constructor
  · by_cases h : (db.completions.filter (fun c => dateLeb s c.date && dateLeb c.date e)).length = 0
    · have hnil : db.completions.filter (fun c => dateLeb s c.date && dateLeb c.date e) = [] :=
        List.length_eq_zero.mp h
      simp [getStats, h, hnil]
    · simp [getStats, h]
  · have hfilter : dbStats.completions.filter
        (fun c => dateLeb ⟨2024, 3, 11⟩ c.date && dateLeb c.date ⟨2024, 3, 17⟩) =
        dbStats.completions := by decide
    have hlen : dbStats.completions.length = 4 := by decide
    have hdone : dbStats.completions.countP (fun c => c.status == "done") = 2 := by decide
    have hmiss : dbStats.completions.countP (fun c => c.status == "missed") = 0 := by decide
    have hpart : dbStats.completions.countP (fun c => c.status == "partial") = 2 := by decide
    have hres : dbStats.completions.countP (fun c => c.status == "rescheduled") = 0 := by decide
    simp only [getStats, hfilter, hlen, hdone, hmiss, hpart, hres]
    rw [if_neg (by norm_num)]
    simp only [Stats.mk.injEq, roundTo1]
    norm_num

/-! ### C7: analytics streaks versus the ledger streak -/

lemma streakGo_agree : ∀ (cs : List Completion) (e : Date) (s n : Nat),
    ledgerStreakGo cs e s = some n → analyticsStreakGo cs e s = n := by
  intro cs
  induction cs with
  | nil =>
    intro e s n h
    simp only [ledgerStreakGo, Option.some.injEq] at h
    simp [analyticsStreakGo, h]
  | cons c rest ih =>
    intro e s n h
    by_cases hd : c.date = e
    · simp only [ledgerStreakGo, if_pos hd] at h
      cases hrep : replaceDay e (e.day - 1) with
      | none => rw [hrep] at h; simp at h
      | some e' =>
        rw [hrep] at h
        have hday : 2 ≤ e.day := by
          by_contra hlt
          have : e.day - 1 = 0 := by omega
          rw [replaceDay, this] at hrep
          simp at hrep
        have he' : e' = subDay e := by
          rw [replaceDay] at hrep
          split at hrep
          · obtain rfl : ({ e with day := e.day - 1 } : Date) = e' := by injection hrep
            rw [subDay, if_pos (by omega)]
          · simp at hrep
        simp only [analyticsStreakGo, if_pos hd]
        rw [← he']
        exact ih e' (s + 1) n h
    · by_cases hlt : dateLtb c.date e = true
      · simp only [ledgerStreakGo, if_neg hd, if_pos hlt, Option.some.injEq] at h
        simp [analyticsStreakGo, hd, hlt, h]
      · simp only [ledgerStreakGo, if_neg hd, if_neg hlt] at h
        simp only [analyticsStreakGo, if_neg hd, if_neg hlt]
        exact ih e s n h

lemma getStreak_agree (db : DB) (activity_id : Nat) (today : Date) (n : Nat)
    (h : getStreak db activity_id today = some n) :
    analyticsStreak db activity_id today = n := by
  by_cases hcs : (doneCompletionsDesc db activity_id).isEmpty = true
  · simp only [getStreak, if_pos hcs, Option.some.injEq] at h
    simp [analyticsStreak, hcs, h.symm]
  · simp only [getStreak, if_neg hcs] at h
    simp only [analyticsStreak, if_neg hcs]
    exact streakGo_agree _ _ _ _ h

/-- C7 (amended): the analytics streaks listing is sorted descending by
streak length, and each reported per-activity streak equals the
Completion Ledger's streak whenever the ledger computation is defined
(its month-boundary `replace(day-1)` crash makes the two differ when the
walk reaches a first of month — see the counterexample). -/
theorem streaks_match_ledger_when_defined (db : DB) (today : Date) :
    List.Sorted entryGe (getStreaks db today) ∧
    ∀ e ∈ getStreaks db today, ∀ n,
      getStreak db e.activity_id today = some n → e.streak = n := by
  constructor
  · simp only [getStreaks]
    exact List.sorted_insertionSort entryGe _
  · intro e he n hn
    simp only [getStreaks] at he
    have hmem : e ∈ (db.activities.filter (fun a => a.is_active)).map
        (fun a => StreakEntry.mk a.id a.title a.category (analyticsStreak db a.id today)) :=
      (List.perm_insertionSort entryGe _).mem_iff.mp he
    obtain ⟨a, _, rfl⟩ := List.mem_map.mp hmem
    exact getStreak_agree db a.id today n hn

/-- C7 witness: on a mid-month store the ledger streak is defined and the
analytics listing reports the same value. -/
theorem streaks_match_ledger_when_defined_witness :
    getStreak dbMar15 1 ⟨2024, 3, 15⟩ = some 1 ∧
    (StreakEntry.mk 1 "Run" "Health" 1).streak = 1 :=
  ⟨by decide,
   (streaks_match_ledger_when_defined dbMar15 ⟨2024, 3, 15⟩).2
     (StreakEntry.mk 1 "Run" "Health" 1) (by decide) 1 (by decide)⟩

/-- C7 counterexample: on 2024-03-01 the analytics listing reports streak
1 for activity 1 while the ledger's streak computation raises
(`replace(day=0)`), so "the analytics streak equals the Ledger's streak"
fails as stated — the two implementations are not equivalent. -/
theorem streaks_ledger_mismatch :
    getStreaks dbMar1 ⟨2024, 3, 1⟩ = [StreakEntry.mk 1 "Run" "Health" 1] ∧
    getStreak dbMar1 1 ⟨2024, 3, 1⟩ = none := by decide

/-! ### C9: creation invariants -/

lemma validateCategory_ok_mem {c v : String} (h : validateCategory c = Except.ok v) :
    v ∈ CATEGORIES := by
  rw [validateCategory] at h
  cases hf : CATEGORIES.find? (fun cat => pyLower cat == pyLower c) with
  | none => rw [hf] at h; simp at h
  | some cat =>
    rw [hf] at h
    obtain rfl : cat = v := by injection h
    exact List.mem_of_find?_eq_some hf

lemma validateRecurrence_ok_mem {r v : String} (h : validateRecurrence r = Except.ok v) :
    v ∈ RECURRENCE_OPTIONS := by
  rw [validateRecurrence] at h
  by_cases hm : pyLower r ∈ RECURRENCE_OPTIONS
  · rw [if_pos hm] at h
    obtain rfl : pyLower r = v := by injection h
    exact hm
  · rw [if_neg hm] at h
    simp at h

lemma validateDuration_ok_bounds {d v : Int} (h : validateDuration d = Except.ok v) :
    1 ≤ v ∧ v ≤ 1440 := by
  rw [validateDuration] at h
  by_cases h1 : d < 1
  · rw [if_pos h1] at h; simp at h
  · rw [if_neg h1] at h
    by_cases h2 : d > 1440
    · rw [if_pos h2] at h; simp at h
    · rw [if_neg h2] at h
      obtain rfl : d = v := by injection h
      omega

lemma validatePrepTime_ok_bounds {p v : Int} (h : validatePrepTime p = Except.ok v) :
    0 ≤ v ∧ v ≤ 180 := by
  rw [validatePrepTime] at h
  by_cases h1 : p < 0
  · rw [if_pos h1] at h; simp at h
  · rw [if_neg h1] at h
    by_cases h2 : p > 180
    · rw [if_pos h2] at h; simp at h
    · rw [if_neg h2] at h
      obtain rfl : p = v := by injection h
      omega

/-- C9 (amended): a successful `create` yields an activity whose category
is normalized into the enumerated category set, whose recurrence is
normalized into the enumerated kinds, whose duration lies in 1–1440 when
present and nonzero (the `if duration:` guard skips validation for 0),
and whose prep time lies in 0–180; the title is stored exactly as given —
`create` performs no non-empty check on it, so creation with an empty
title succeeds (see the counterexample). -/
theorem create_validates (db : DB) (title : String) (parsed_time : Time) (category : String)
    (description : Option String) (duration : Option Int) (recurrence : String)
    (custom_days : Option String) (location : Option String) (prep_time : Int)
    (is_outdoor : Bool) (created_at : DateTime) (a : Activity) (db' : DB)
    (h : create db title parsed_time category description duration recurrence
      custom_days location prep_time is_outdoor created_at = Except.ok (a, db')) :
    a.title = title ∧ a.category ∈ CATEGORIES ∧ a.recurrence ∈ RECURRENCE_OPTIONS ∧
    (∀ k, a.duration = some k → k ≠ 0 → 1 ≤ k ∧ k ≤ 1440) ∧
    0 ≤ a.prep_time ∧ a.prep_time ≤ 180 := by
  rw [create.eq_def] at h
  cases hcat : validateCategory category with
  | error m => rw [hcat] at h; simp at h
  | ok vcat =>
  rw [hcat] at h
  cases hrec : validateRecurrence recurrence with
  | error m => rw [hrec] at h; simp at h
  | ok vrec =>
  rw [hrec] at h
  have hdur : ∀ dur', (match duration with
      | some dur => if dur ≠ 0 then (validateDuration dur).map some else Except.ok (some dur)
      | none => Except.ok none) = Except.ok dur' →
      ∀ k, dur' = some k → k ≠ 0 → 1 ≤ k ∧ k ≤ 1440 := by
    intro dur' hd k hk hk0
    cases duration with
    | none =>
      simp only [Except.ok.injEq] at hd
      rw [← hd] at hk
      simp at hk
    | some dur =>
      by_cases hz : dur = 0
      · simp only [hz, ne_eq, not_true_eq_false, if_false, Except.ok.injEq] at hd
        rw [← hd] at hk
        obtain rfl : (0 : Int) = k := by injection hk
        simp at hk0
      · simp only [ne_eq, hz, not_false_eq_true, if_true] at hd
        cases hvd : validateDuration dur with
        | error m => rw [hvd] at hd; simp [Except.map] at hd
        | ok vd =>
          rw [hvd] at hd
          simp only [Except.map, Except.ok.injEq] at hd
          rw [← hd] at hk
          obtain rfl : vd = k := by injection hk
          exact validateDuration_ok_bounds hvd
  cases hdm : (match duration with
      | some dur => if dur ≠ 0 then (validateDuration dur).map some else Except.ok (some dur)
      | none => Except.ok none) with
  | error m => rw [hdm] at h; simp at h
  | ok dur' =>
  rw [hdm] at h
  have hprep : ∀ p', (if prep_time ≠ 0 then validatePrepTime prep_time else Except.ok prep_time) =
      Except.ok p' → 0 ≤ p' ∧ p' ≤ 180 := by
    intro p' hp
    by_cases hz : prep_time = 0
    · simp only [hz, ne_eq, not_true_eq_false, if_false, Except.ok.injEq] at hp
      omega
    · simp only [ne_eq, hz, not_false_eq_true, if_true] at hp
      exact validatePrepTime_ok_bounds hp
  cases hpm : (if prep_time ≠ 0 then validatePrepTime prep_time else Except.ok prep_time) with
  | error m => rw [hpm] at h; simp at h
  | ok prep' =>
  rw [hpm] at h
  simp only [Except.ok.injEq, Prod.mk.injEq] at h
  obtain ⟨rfl, _⟩ := h
  refine ⟨rfl, validateCategory_ok_mem hcat, validateRecurrence_ok_mem hrec, ?_, ?_⟩
  · intro k hk hk0
    exact hdur dur' hdm k hk hk0
  · exact hprep prep' hpm

def aGym : Activity :=
  { id := 1, title := "Gym", description := none, category := "Health",
    start_time := ⟨7, 0⟩, duration := some 60, recurrence := "daily",
    custom_days := none, location := none, prep_time := 15,
    is_outdoor := false, is_active := true, created_at := dt0 }

/-- C9 witness: a concrete successful creation satisfies the amended
invariants. -/
theorem create_validates_witness :
    aGym.title = "Gym" ∧ aGym.category ∈ CATEGORIES ∧ aGym.recurrence ∈ RECURRENCE_OPTIONS ∧
    (∀ k, aGym.duration = some k → k ≠ 0 → 1 ≤ k ∧ k ≤ 1440) ∧
    0 ≤ aGym.prep_time ∧ aGym.prep_time ≤ 180 :=
  create_validates dbEmpty "Gym" ⟨7, 0⟩ "health" none (some 60) "Daily" none none 15 false dt0
    aGym ⟨[aGym], [], 2, 1⟩ (by decide)

/-- C9 counterexample: `create` never checks the title and the
`if duration:` guard skips validation for 0, so creating with an empty
title and duration 0 succeeds, storing both — the claim that creation
with an empty title is rejected is false. -/
theorem create_accepts_empty_title :
    (create dbEmpty "" ⟨9, 0⟩ "Other" none (some 0) "once" none none 15 false dt0).toOption.map
      (fun p => (p.1.title, p.1.duration)) = some ("", some 0) := by decide

end Buddy
